import Mathlib

/-!
# Verification of the Tableau SQL extractor core

A shallow embedding of `src/tableau_sql_extractor.py` (function
`extract_sql_from_tdsx` and its file sink), together with theorems about
the extraction behaviour.

Modelling conventions:
* XML documents (the parsed `.tds` descriptors) are finite labelled trees
  `XMLElem`; `ElementTree.findall('.//tag')` becomes a preorder traversal of
  proper descendants filtered by tag, `find('.//tag')` its head.
* The zip archive boundary (`zipfile.ZipFile`) and the XML parser
  (`ET.fromstring`) are external library calls: an archive is either an open
  error (`NotFound` / bad zip signature) or a list of named entries, each
  entry's content being either a parsed tree or a parse error.
* Python's ordered `dict` is an association list with insert-or-overwrite
  keeping the original key position.
* `str.strip()` is modelled on the ASCII whitespace set
  (space, `\t`, `\n`, `\x0b`, `\x0c`, `\r`); `str.isalnum()` is modelled
  exactly on ASCII, Latin-1 and Latin Extended-A code points (below U+0180)
  and conservatively (`false`) above, which is the scope of all statements
  made about it here.
-/

namespace TableauSQLExtractor

/-- An XML element as produced by `xml.etree.ElementTree`: a tag, an
attribute list, the text directly before the first child (`.text`,
`None` when absent) and the child elements in document order. -/
inductive XMLElem : Type where
  | mk (tag : String) (attrs : List (String × String)) (text : Option String)
      (children : List XMLElem) : XMLElem

/-- The element's tag. -/
def XMLElem.tag : XMLElem → String
  | .mk t _ _ _ => t

/-- The element's attribute list. -/
def XMLElem.attrs : XMLElem → List (String × String)
  | .mk _ a _ _ => a

/-- The element's `.text` field. -/
def XMLElem.text : XMLElem → Option String
  | .mk _ _ x _ => x

/-- The element's children in document order. -/
def XMLElem.children : XMLElem → List XMLElem
  | .mk _ _ _ c => c

/-- `e.get(k)`: the value of attribute `k`, if present. -/
def XMLElem.attr (e : XMLElem) (k : String) : Option String :=
  (e.attrs.find? (fun p => p.1 = k)).map (fun p => p.2)

/-- `e.get(k, d)`: the value of attribute `k`, or the default `d` when the
attribute is absent (Python `dict.get` with a default). -/
def XMLElem.attrD (e : XMLElem) (k d : String) : String :=
  (e.attr k).getD d

mutual

/-- All proper descendants of an element in document (preorder) order:
the universe over which `findall('.//…')` selects. -/
def descendants : XMLElem → List XMLElem
  | .mk _ _ _ cs => descendantsList cs

/-- Preorder listing of a forest: every root followed by its descendants. -/
def descendantsList : List XMLElem → List XMLElem
  | [] => []
  | c :: cs => c :: (descendants c ++ descendantsList cs)

end

/-- `e.findall('.//t')`: all proper descendants with tag `t`, in document
order. -/
def findAll (e : XMLElem) (t : String) : List XMLElem :=
  (descendants e).filter (fun c => c.tag = t)

/-- `e.findall('.//t[@k="v"]')`: all proper descendants with tag `t` whose
attribute `k` equals `v`, in document order. -/
def findAllAttr (e : XMLElem) (t k v : String) : List XMLElem :=
  (descendants e).filter (fun c => c.tag = t && c.attr k = some v)

/-- The whitespace characters removed by Python `str.strip()`, restricted to
ASCII (Python additionally strips Unicode spaces, which do not occur in this
development's scope). -/
def isPySpace (c : Char) : Bool :=
  c = ' ' || c = '\t' || c = '\n' || c = '\x0b' || c = '\x0c' || c = '\r'

/-- Strip of a character list: drop whitespace from both ends. -/
def pyStripL (l : List Char) : List Char :=
  ((l.dropWhile isPySpace).reverse.dropWhile isPySpace).reverse

/-- Python `s.strip()`: `s` without leading and trailing whitespace. -/
def pyStrip (s : String) : String :=
  ⟨pyStripL s.data⟩

/-!
## The per-connection relation loop

```python
for rel_idx, relation in enumerate(relations, 1):
    sql_text = relation.text
    if sql_text and sql_text.strip():
        key = f"{conn_name}_query_{rel_idx}" if len(relations) > 1 else conn_name
        sql_queries[key] = sql_text.strip()
```
-/

/-- One step of the relation loop: `total` is `len(relations)` (fixed before
the loop) and `i` the running 1-based `rel_idx`. A relation whose `.text` is
`None`, empty or whitespace-only is skipped; otherwise it contributes
`(key, stripped text)` where `key` carries the `_query_<i>` suffix exactly
when `total > 1`. -/
def relEntriesAux (connName : String) (total : Nat) : Nat → List XMLElem →
    List (String × String)
  | _, [] => []
  | i, rel :: rest =>
    match rel.text with
    | none => relEntriesAux connName total (i + 1) rest
    | some t =>
      if pyStrip t = "" then relEntriesAux connName total (i + 1) rest
      else (if total > 1 then connName ++ "_query_" ++ toString i else connName,
            pyStrip t) :: relEntriesAux connName total (i + 1) rest

/-- The labelled entries produced by one connection's relation list. -/
def relEntries (connName : String) (rels : List XMLElem) :
    List (String × String) :=
  relEntriesAux connName rels.length 1 rels

/-- `connection.findall('.//relation[@type="text"]')`. -/
def textRelations (conn : XMLElem) : List XMLElem :=
  findAllAttr conn "relation" "type" "text"

/-- `connection.get('class', f'connection_{idx}')`: the display name of the
`idx`-th (1-based) connection. -/
def connDisplayName (conn : XMLElem) (idx : Nat) : String :=
  conn.attrD "class" ("connection_" ++ toString idx)

/-- The entries contributed by one connection, given its 1-based position
among all connections of the document. -/
def connEntries (conn : XMLElem) (idx : Nat) : List (String × String) :=
  relEntries (connDisplayName conn idx) (textRelations conn)

/-- The connection loop `for idx, connection in enumerate(connections, 1)`,
collecting each connection's entries in order. -/
def connsEntriesAux : Nat → List XMLElem → List (String × String)
  | _, [] => []
  | i, conn :: rest => connEntries conn i ++ connsEntriesAux (i + 1) rest

/-- The named-connection pass:

```python
named_connections = root.findall('.//named-connection')
for named_conn in named_connections:
    name = named_conn.get('name', 'unnamed')
    connection_elem = named_conn.find('.//connection')
    if connection_elem is not None:
        initial_sql = connection_elem.get('one-time-sql')
        if initial_sql and initial_sql.strip():
            sql_queries[f"{name}_initial_sql"] = initial_sql.strip()
```
-/
def namedConnEntry (nc : XMLElem) : Option (String × String) :=
  ((findAll nc "connection").head?).bind fun ce =>
    (ce.attr "one-time-sql").bind fun sql =>
      if pyStrip sql = "" then none
      else some (nc.attrD "name" "unnamed" ++ "_initial_sql", pyStrip sql)

/-- All entries of the named-connection pass, in document order. -/
def namedConnEntries (root : XMLElem) : List (String × String) :=
  (findAll root "named-connection").filterMap namedConnEntry

/-- All `(key, sql)` pairs one parsed descriptor document inserts into
`sql_queries`, in insertion order: the connection loop followed by the
named-connection pass. -/
def docEntries (root : XMLElem) : List (String × String) :=
  connsEntriesAux 1 (findAll root "connection") ++ namedConnEntries root

/-!
## The Python dict and the archive-level control flow
-/

/-- `sql_queries[key] = v` on an insertion-ordered dict: an existing key keeps
its position and gets the new value, a new key is appended. -/
def dictInsert (m : List (String × String)) (k v : String) :
    List (String × String) :=
  if m.any (fun p => p.1 = k) then
    m.map (fun p => if p.1 = k then (k, v) else p)
  else m ++ [(k, v)]

/-- Insert a list of entries one by one, last write wins. -/
def dictInsertAll (m : List (String × String)) (es : List (String × String)) :
    List (String × String) :=
  es.foldl (fun acc p => dictInsert acc p.1 p.2) m

/-- Python `name.endswith(".tds")`, via a structurally recursive suffix test
on the character lists (`String.endsWith` itself is defined by well-founded
recursion on byte positions, which blocks kernel evaluation). -/
def strEndsWith (s suffixStr : String) : Bool :=
  suffixStr.data.isSuffixOf s.data

/-- Errors the function reports (by printing) before returning. -/
inductive ExtractError : Type where
  | notFound | notAnArchive | malformedDocument
deriving DecidableEq

/-- Ways opening the archive can fail before any entry is read:
the path does not exist, or `zipfile.ZipFile` raises `BadZipFile`. -/
inductive OpenError : Type where
  | notFound | badZip
deriving DecidableEq

/-- The opened zip archive: its named entries in listing order; each entry's
content is abstracted to the outcome of `ET.fromstring` on its bytes (the
content is only ever consumed by the parser). -/
structure ZipArchive : Type where
  entries : List (String × Except Unit XMLElem)

/-- What `extract_sql_from_tdsx` observably produces: the returned dict, the
error it printed (if an exception path was taken), and whether the
"No .tds file found" message was printed. -/
structure ExtractResult : Type where
  mapping : List (String × String)
  errorReported : Option ExtractError
  reportedNoTds : Bool
deriving DecidableEq

/-- The `for tds_file in tds_files` loop: each descriptor parses and its
entries are inserted, until a parse failure raises `ET.ParseError`, which
aborts the loop; the dict accumulated so far survives (the handler is outside
the loop). -/
def processDocs : List (Except Unit XMLElem) → List (String × String) →
    List (String × String) × Option ExtractError
  | [], m => (m, none)
  | Except.error _ :: _, m => (m, some ExtractError.malformedDocument)
  | Except.ok root :: rest, m => processDocs rest (dictInsertAll m (docEntries root))

/-- `extract_sql_from_tdsx` up to (and excluding) the file sink: the
os-path-exists check, opening the zip, filtering `.tds` entries, the
empty-list early return, and the descriptor loop. -/
def extract_sql_from_tdsx (input : Except OpenError ZipArchive) :
    ExtractResult :=
  match input with
  | Except.error OpenError.notFound =>
    ⟨[], some ExtractError.notFound, false⟩
  | Except.error OpenError.badZip =>
    ⟨[], some ExtractError.notAnArchive, false⟩
  | Except.ok ar =>
    let tds := ar.entries.filter (fun e => strEndsWith e.1 ".tds")
    if tds.isEmpty then ⟨[], none, true⟩
    else
      let r := processDocs (tds.map (fun e => e.2)) []
      ⟨r.1, r.2, false⟩

/-!
## The file sink

```python
safe_name = "".join(c if c.isalnum() or c in ('-', '_') else '_' for c in name)
output_path = os.path.join(output_dir, f"{safe_name}.sql")
with open(output_path, 'w', encoding='utf-8') as f:
    f.write(sql)
```
-/

/-- Python `c.isalnum()`. Modelled exactly for code points below U+0180:
ASCII alphanumerics, the Latin-1 alphanumerics (ª ² ³ µ ¹ º ¼ ½ ¾ and the
letters U+00C0–U+00FF except × and ÷) and Latin Extended-A (all letters).
Code points from U+0180 on are outside the scope of this development and map
to `false`. -/
def pyIsAlnum (c : Char) : Bool :=
  c.isAlphanum ||
  c.toNat == 0xAA || c.toNat == 0xB2 || c.toNat == 0xB3 || c.toNat == 0xB5 ||
  c.toNat == 0xB9 || c.toNat == 0xBA || c.toNat == 0xBC || c.toNat == 0xBD ||
  c.toNat == 0xBE ||
  (0xC0 ≤ c.toNat && c.toNat ≤ 0x17F && c.toNat != 0xD7 && c.toNat != 0xF7)

/-- One character of the safe filename. -/
def sanitizeChar (c : Char) : Char :=
  if pyIsAlnum c || c = '-' || c = '_' then c else '_'

/-- The filesystem-safe transform of a label. -/
def safeName (s : String) : String :=
  ⟨s.data.map sanitizeChar⟩

/-- The sequence of writes the sink performs: one `(filename, content)` pair
per mapping entry, in mapping order. -/
def sinkWrites (m : List (String × String)) : List (String × String) :=
  m.map (fun p => (safeName p.1 ++ ".sql", p.2))

/-- The directory contents after the sink ran: later writes overwrite
earlier files of the same name (`open(..., 'w')`). -/
def sinkState (m : List (String × String)) : List (String × String) :=
  dictInsertAll [] (sinkWrites m)

/-!
## Concrete documents used as counterexamples and witnesses
-/

/-- A whitespace-only custom-SQL relation. -/
def blankRel : XMLElem := .mk "relation" [("type", "text")] (some "   ") []

/-- A connection with one whitespace-only and one non-empty text relation. -/
def c1Conn : XMLElem := .mk "connection" [("class", "c")] none
  [blankRel, .mk "relation" [("type", "text")] (some "SELECT 1") []]

/-- A document holding `c1Conn`. -/
def c1Doc : XMLElem := .mk "datasource" [] none [c1Conn]

/-- A single text relation with padded text, for the single-relation case. -/
def c1wRel : XMLElem := .mk "relation" [("type", "text")] (some " SELECT 1 ") []

/-- A connection with exactly one text relation. -/
def c1wConn : XMLElem := .mk "connection" [("class", "c")] none [c1wRel]

/-- A connection with a whitespace-only relation before two non-empty ones. -/
def c2Conn : XMLElem := .mk "connection" [("class", "c")] none
  [blankRel,
   .mk "relation" [("type", "text")] (some "SELECT 1") [],
   .mk "relation" [("type", "text")] (some "SELECT 2") []]

/-- A document holding `c2Conn`. -/
def c2Doc : XMLElem := .mk "datasource" [] none [c2Conn]

/-- A connection with two non-empty text relations and no empty ones. -/
def c2wConn : XMLElem := .mk "connection" [("class", "c")] none
  [.mk "relation" [("type", "text")] (some "SELECT 1") [],
   .mk "relation" [("type", "text")] (some "SELECT 2") []]

/-- A descriptor document with one connection and one query, used where an
arbitrary well-formed document is needed. -/
def simpleDoc : XMLElem := .mk "datasource" [] none
  [.mk "connection" [("class", "sqlserver")] none
    [.mk "relation" [("type", "text")] (some "SELECT 1") []]]

/-- A connection whose `class` attribute is present but empty. -/
def c4Conn : XMLElem := .mk "connection" [("class", "")] none
  [.mk "relation" [("type", "text")] (some "SELECT 2") []]

/-- A document holding `c4Conn`. -/
def c4Doc : XMLElem := .mk "datasource" [] none [c4Conn]

/-- A connection with no `class` attribute at all. -/
def c4wConn : XMLElem := .mk "connection" [] none
  [.mk "relation" [("type", "text")] (some "SELECT 2") []]

/-- A document holding `c4wConn` as its only connection. -/
def c4wDoc : XMLElem := .mk "datasource" [] none [c4wConn]

/-- A connection carrying `one-time-sql` with trailing blanks. -/
def c5wCe : XMLElem := .mk "connection" [("one-time-sql", "SELECT 3  ")] none []

/-- A named connection wrapping `c5wCe`. -/
def c5wNc : XMLElem := .mk "named-connection" [("name", "src")] none [c5wCe]

/-- A document holding `c5wNc`. -/
def c5wDoc : XMLElem := .mk "datasource" [] none [c5wNc]

/-- Three connections whose `class` values need sanitising: a non-ASCII
alphanumeric and two labels that collide after sanitisation. -/
def c6Doc : XMLElem := .mk "datasource" [] none
  [.mk "connection" [("class", "é")] none
     [.mk "relation" [("type", "text")] (some "SELECT 1") []],
   .mk "connection" [("class", "a:b")] none
     [.mk "relation" [("type", "text")] (some "SELECT 2") []],
   .mk "connection" [("class", "a;b")] none
     [.mk "relation" [("type", "text")] (some "SELECT 3") []]]

/-- The archive wrapping `c6Doc` in one descriptor entry. -/
def c6Archive : ZipArchive := ⟨[("data.tds", Except.ok c6Doc)]⟩

/-- An archive with entries but none ending in `.tds`. -/
def c8Archive : ZipArchive :=
  ⟨[("Data/image.png", Except.error ()), ("meta.xml", Except.ok simpleDoc)]⟩

/-- An archive whose only `.tds` entry is parsed by the C9 witness. -/
def c9Archive : ZipArchive := ⟨[("d.tds", Except.ok c2Doc)]⟩

/-- An inner connection nested inside another connection. -/
def c10Inner : XMLElem := .mk "connection" [("class", "inner")] none
  [.mk "relation" [("type", "text")] (some "SELECT 2") []]

/-- The outer connection wrapping `c10Inner`. -/
def c10Outer : XMLElem := .mk "connection" [("class", "outer")] none [c10Inner]

/-- A document whose connection list is `[c10Outer, c10Inner]`. -/
def c10Root : XMLElem := .mk "datasource" [] none [c10Outer]

/-!
## Helper lemmas: stripping
-/

/-- `pyStripL` is left-strip followed by right-strip. -/
theorem pyStripL_eq (l : List Char) :
    pyStripL l = (l.dropWhile isPySpace).rdropWhile isPySpace := rfl

/-- The head surviving a `dropWhile` fails the predicate. -/
theorem dropWhile_head_false {α : Type} {p : α → Bool} :
    ∀ (l : List α) (a : α) (t : List α), l.dropWhile p = a :: t → p a = false
  | [], a, t, h => by simp [List.dropWhile] at h
  | x :: xs, a, t, h => by
    rw [List.dropWhile_cons] at h
    by_cases hx : p x
    · exact dropWhile_head_false xs a t (by simpa [hx] using h)
    · rw [if_neg hx] at h
      injection h with h1 h2
      rw [← h1]
      simpa using hx

/-- Stripping an already stripped character list changes nothing. -/
theorem pyStripL_idem (l : List Char) : pyStripL (pyStripL l) = pyStripL l := by
  rw [pyStripL_eq, pyStripL_eq]
  have h1 : ((l.dropWhile isPySpace).rdropWhile isPySpace).dropWhile isPySpace
      = (l.dropWhile isPySpace).rdropWhile isPySpace := by
    cases hrd : (l.dropWhile isPySpace).rdropWhile isPySpace with
    | nil => simp
    | cons a t' =>
      obtain ⟨t, ht⟩ := List.rdropWhile_prefix isPySpace (l.dropWhile isPySpace)
      rw [hrd] at ht
      have hcons : l.dropWhile isPySpace = a :: (t' ++ t) := by
        rw [← ht]
        simp
      have hpa : isPySpace a = false := dropWhile_head_false l a (t' ++ t) hcons
      rw [List.dropWhile_cons, hpa]
      simp
  rw [h1, List.rdropWhile_idempotent]

/-- Stripping an already stripped string changes nothing. -/
theorem pyStrip_idem (s : String) : pyStrip (pyStrip s) = pyStrip s :=
  congrArg String.mk (pyStripL_idem s.data)

/-!
## Helper lemmas: the dict and the descriptor loop
-/

/-- A pair of the dict after one insertion was already present or is the
inserted pair. -/
theorem mem_dictInsert (m : List (String × String)) (k v : String)
    (p : String × String) (h : p ∈ dictInsert m k v) : p ∈ m ∨ p = (k, v) := by
  rw [dictInsert] at h
  split at h
  · obtain ⟨q, hq, hqe⟩ := List.mem_map.mp h
    by_cases hk : q.1 = k
    · right
      simpa [hk] using hqe.symm
    · left
      have hqp : q = p := by simpa [hk] using hqe
      exact hqp ▸ hq
  · rcases List.mem_append.mp h with h | h
    · exact Or.inl h
    · exact Or.inr (List.mem_singleton.mp h)

/-- A pair of the dict after a batch of insertions was already present or is
one of the inserted pairs. -/
theorem mem_dictInsertAll (es m : List (String × String)) (p : String × String)
    (h : p ∈ dictInsertAll m es) : p ∈ m ∨ p ∈ es := by
  induction es generalizing m with
  | nil => exact Or.inl h
  | cons e rest ih =>
    rcases ih (dictInsert m e.1 e.2) h with h' | h'
    · rcases mem_dictInsert m e.1 e.2 p h' with h'' | h''
      · exact Or.inl h''
      · exact Or.inr (h'' ▸ List.mem_cons_self e rest)
    · exact Or.inr (List.mem_cons_of_mem e h')

/-- Inserting a key absent from the dict appends the pair. -/
theorem dictInsert_of_fresh (m : List (String × String)) (k v : String)
    (h : ∀ p ∈ m, p.1 ≠ k) : dictInsert m k v = m ++ [(k, v)] := by
  rw [dictInsert, if_neg]
  simp only [List.any_eq_true, decide_eq_true_eq, not_exists, not_and]
  exact h

/-- Batch insertion with globally distinct keys is plain concatenation. -/
theorem dictInsertAll_of_fresh (es m : List (String × String))
    (h : ((m ++ es).map Prod.fst).Nodup) : dictInsertAll m es = m ++ es := by
  induction es generalizing m with
  | nil => simp [dictInsertAll]
  | cons e rest ih =>
    have hfresh : ∀ p ∈ m, p.1 ≠ e.1 := by
      intro p hp hpe
      rw [List.map_append] at h
      have hd := (List.nodup_append.mp h).2.2
      exact hd (List.mem_map_of_mem Prod.fst hp) (by simp [hpe])
    have hstep : dictInsert m e.1 e.2 = m ++ [e] :=
      dictInsert_of_fresh m e.1 e.2 hfresh
    have h' : (((m ++ [e]) ++ rest).map Prod.fst).Nodup := by
      rwa [List.append_assoc, List.singleton_append]
    calc dictInsertAll m (e :: rest)
        = dictInsertAll (m ++ [e]) rest := by
          simp only [dictInsertAll, List.foldl_cons, hstep]
      _ = (m ++ [e]) ++ rest := ih (m ++ [e]) h'
      _ = m ++ e :: rest := by
          rw [List.append_assoc, List.singleton_append]

/-!
## Helper lemmas: the relation and connection loops
-/

/-- Loop step for a relation without text. -/
theorem relEntriesAux_cons_none (connName : String) (total start : Nat)
    (rel : XMLElem) (rest : List XMLElem) (h : rel.text = none) :
    relEntriesAux connName total start (rel :: rest)
      = relEntriesAux connName total (start + 1) rest := by
  rw [relEntriesAux, h]

/-- Loop step for a relation with whitespace-only text. -/
theorem relEntriesAux_cons_blank (connName : String) (total start : Nat)
    (rel : XMLElem) (rest : List XMLElem) (t : String) (h : rel.text = some t)
    (hb : pyStrip t = "") :
    relEntriesAux connName total start (rel :: rest)
      = relEntriesAux connName total (start + 1) rest := by
  rw [relEntriesAux, h]
  exact if_pos hb

/-- Loop step for a relation with non-empty stripped text. -/
theorem relEntriesAux_cons_text (connName : String) (total start : Nat)
    (rel : XMLElem) (rest : List XMLElem) (t : String) (h : rel.text = some t)
    (hne : pyStrip t ≠ "") :
    relEntriesAux connName total start (rel :: rest)
      = (if total > 1 then connName ++ "_query_" ++ toString start else connName,
         pyStrip t) :: relEntriesAux connName total (start + 1) rest := by
  rw [relEntriesAux, h]
  exact if_neg hne

/-- Every entry the relation loop emits comes from a relation of the list
whose text is non-empty after stripping, and carries that stripped text. -/
theorem relEntriesAux_sound (connName : String) (total : Nat) :
    ∀ (rels : List XMLElem) (start : Nat) (e : String × String),
      e ∈ relEntriesAux connName total start rels →
      ∃ rel ∈ rels, ∃ t, rel.text = some t ∧ pyStrip t ≠ "" ∧ e.2 = pyStrip t
  | [], _, _, he => by simp [relEntriesAux] at he
  | rel :: rest, start, e, he => by
    have tail : e ∈ relEntriesAux connName total (start + 1) rest →
        ∃ r ∈ rel :: rest, ∃ t, r.text = some t ∧ pyStrip t ≠ "" ∧
          e.2 = pyStrip t := by
      intro h
      obtain ⟨r, hr, t, ht⟩ :=
        relEntriesAux_sound connName total rest (start + 1) e h
      exact ⟨r, List.mem_cons_of_mem rel hr, t, ht⟩
    cases htext : rel.text with
    | none =>
      rw [relEntriesAux_cons_none connName total start rel rest htext] at he
      exact tail he
    | some t =>
      by_cases hne : pyStrip t = ""
      · rw [relEntriesAux_cons_blank connName total start rel rest t htext
          hne] at he
        exact tail he
      · rw [relEntriesAux_cons_text connName total start rel rest t htext
          hne] at he
        rcases List.mem_cons.mp he with he | he
        · exact ⟨rel, List.mem_cons_self rel rest, t, htext, hne, by rw [he]⟩
        · exact tail he

/-- Every relation of the list with non-empty stripped text produces an entry
carrying that stripped text. -/
theorem relEntriesAux_complete (connName : String) (total : Nat) :
    ∀ (rels : List XMLElem) (start : Nat) (rel : XMLElem) (t : String),
      rel ∈ rels → rel.text = some t → pyStrip t ≠ "" →
      ∃ e ∈ relEntriesAux connName total start rels, e.2 = pyStrip t
  | [], _, _, _, hmem, _, _ => absurd hmem (List.not_mem_nil _)
  | r :: rest, start, rel, t, hmem, htext, hne => by
    rcases List.mem_cons.mp hmem with hr | hr
    · subst hr
      rw [relEntriesAux_cons_text connName total start rel rest t htext hne]
      exact ⟨_, List.mem_cons_self _ _, rfl⟩
    · obtain ⟨e, he, hev⟩ :=
        relEntriesAux_complete connName total rest (start + 1) rel t hr htext hne
      refine ⟨e, ?_, hev⟩
      cases hrt : r.text with
      | none =>
        rw [relEntriesAux_cons_none connName total start r rest hrt]
        exact he
      | some s =>
        by_cases hs : pyStrip s = ""
        · rw [relEntriesAux_cons_blank connName total start r rest s hrt hs]
          exact he
        · rw [relEntriesAux_cons_text connName total start r rest s hrt hs]
          exact List.mem_cons_of_mem _ he

/-- The `i`-th relation of the list (0-based), when its text is non-empty
after stripping and the list holds more than one relation, yields the entry
keyed with the 1-based index `start + i`. -/
theorem relEntriesAux_mem_at (connName : String) (total : Nat)
    (htot : 1 < total) :
    ∀ (rels : List XMLElem) (start i : Nat) (rel : XMLElem) (t : String),
      rels[i]? = some rel → rel.text = some t → pyStrip t ≠ "" →
      (connName ++ "_query_" ++ toString (start + i), pyStrip t)
        ∈ relEntriesAux connName total start rels
  | [], _, i, _, _, hi, _, _ => by simp at hi
  | r :: rest, start, 0, rel, t, hi, htext, hne => by
    have hr : r = rel := by simpa using hi
    subst hr
    rw [relEntriesAux_cons_text connName total start r rest t htext hne,
      if_pos htot]
    exact List.mem_cons_self _ _
  | r :: rest, start, i + 1, rel, t, hi, htext, hne => by
    have hi' : rest[i]? = some rel := by simpa using hi
    have ih := relEntriesAux_mem_at connName total htot rest (start + 1) i rel
      t hi' htext hne
    have harith : start + 1 + i = start + (i + 1) := by omega
    rw [harith] at ih
    cases hrt : r.text with
    | none =>
      rw [relEntriesAux_cons_none connName total start r rest hrt]
      exact ih
    | some s =>
      by_cases hs : pyStrip s = ""
      · rw [relEntriesAux_cons_blank connName total start r rest s hrt hs]
        exact ih
      · rw [relEntriesAux_cons_text connName total start r rest s hrt hs]
        exact List.mem_cons_of_mem _ ih

/-- Splitting the connection loop around one connection: its entries appear
between those of the connections before and after it, and its 1-based index
is its position in the list. -/
theorem connsEntriesAux_append (conn : XMLElem) :
    ∀ (pre post : List XMLElem) (i : Nat),
      connsEntriesAux i (pre ++ conn :: post)
        = connsEntriesAux i pre ++ connEntries conn (i + pre.length)
          ++ connsEntriesAux (i + pre.length + 1) post
  | [], post, i => by simp [connsEntriesAux]
  | c :: pre, post, i => by
    have ih := connsEntriesAux_append conn pre post (i + 1)
    have e1 : i + 1 + pre.length = i + (c :: pre).length := by
      simp only [List.length_cons]
      omega
    rw [e1] at ih
    show connEntries c i ++ connsEntriesAux (i + 1) (pre ++ conn :: post)
      = connsEntriesAux i (c :: pre) ++ connEntries conn (i + (c :: pre).length)
        ++ connsEntriesAux (i + (c :: pre).length + 1) post
    rw [ih]
    show _ = (connEntries c i ++ connsEntriesAux (i + 1) pre)
      ++ connEntries conn (i + (c :: pre).length)
      ++ connsEntriesAux (i + (c :: pre).length + 1) post
    simp only [List.append_assoc]

/-- Every entry of the connection loop carries the non-empty stripped text of
some relation. -/
theorem connsEntriesAux_sound :
    ∀ (conns : List XMLElem) (i : Nat) (e : String × String),
      e ∈ connsEntriesAux i conns →
      ∃ t, pyStrip t ≠ "" ∧ e.2 = pyStrip t
  | [], _, _, he => by simp [connsEntriesAux] at he
  | c :: rest, i, e, he => by
    rw [connsEntriesAux] at he
    rcases List.mem_append.mp he with he | he
    · obtain ⟨_, _, t, _, hne, hev⟩ :=
        relEntriesAux_sound (connDisplayName c i) (textRelations c).length
          (textRelations c) 1 e (by simpa [connEntries, relEntries] using he)
      exact ⟨t, hne, hev⟩
    · exact connsEntriesAux_sound rest (i + 1) e he

/-- The named-connection entry function on the successful path. -/
theorem namedConnEntry_eq (nc ce : XMLElem) (sql : String)
    (hce : (findAll nc "connection").head? = some ce)
    (hsql : ce.attr "one-time-sql" = some sql) (hne : pyStrip sql ≠ "") :
    namedConnEntry nc
      = some (nc.attrD "name" "unnamed" ++ "_initial_sql", pyStrip sql) := by
  rw [namedConnEntry, hce, Option.some_bind, hsql, Option.some_bind, if_neg hne]

/-- Every entry of the named-connection pass carries a non-empty stripped
`one-time-sql` text. -/
theorem namedConnEntries_sound (root : XMLElem) (e : String × String)
    (he : e ∈ namedConnEntries root) :
    ∃ t, pyStrip t ≠ "" ∧ e.2 = pyStrip t := by
  rw [namedConnEntries] at he
  obtain ⟨nc, _, hf⟩ := List.mem_filterMap.mp he
  rw [namedConnEntry] at hf
  cases hce : (findAll nc "connection").head? with
  | none =>
    rw [hce, Option.none_bind] at hf
    exact absurd hf (by simp)
  | some ce =>
    rw [hce, Option.some_bind] at hf
    cases hsql : ce.attr "one-time-sql" with
    | none =>
      rw [hsql, Option.none_bind] at hf
      exact absurd hf (by simp)
    | some sql =>
      rw [hsql, Option.some_bind] at hf
      by_cases hne : pyStrip sql = ""
      · rw [if_pos hne] at hf
        exact absurd hf (by simp)
      · rw [if_neg hne] at hf
        exact ⟨sql, hne, by rw [← Option.some.inj hf]⟩

/-- Every entry a document inserts carries the non-empty stripped text of a
relation or of a `one-time-sql` attribute. -/
theorem docEntries_sound (root : XMLElem) (e : String × String)
    (he : e ∈ docEntries root) :
    ∃ t, pyStrip t ≠ "" ∧ e.2 = pyStrip t := by
  rcases List.mem_append.mp he with he | he
  · exact connsEntriesAux_sound _ 1 e he
  · exact namedConnEntries_sound root e he

/-!
## Helper lemmas: the descriptor loop and the returned mapping
-/

/-- Unfolding `extract_sql_from_tdsx` on a successfully opened archive. -/
theorem extract_sql_from_tdsx_ok (ar : ZipArchive) :
    extract_sql_from_tdsx (Except.ok ar)
      = (if (ar.entries.filter (fun e => strEndsWith e.1 ".tds")).isEmpty then
          (⟨[], none, true⟩ : ExtractResult)
        else
          ⟨(processDocs ((ar.entries.filter
                (fun e => strEndsWith e.1 ".tds")).map (fun e => e.2)) []).1,
           (processDocs ((ar.entries.filter
                (fun e => strEndsWith e.1 ".tds")).map (fun e => e.2)) []).2,
           false⟩) := rfl

/-- Every pair of the dict after the descriptor loop was already there or was
inserted by one successfully parsed document. -/
theorem processDocs_mem :
    ∀ (docs : List (Except Unit XMLElem)) (m : List (String × String))
      (p : String × String), p ∈ (processDocs docs m).1 →
      p ∈ m ∨ ∃ root, Except.ok root ∈ docs ∧ p ∈ docEntries root
  | [], _, _, hp => Or.inl hp
  | Except.error _ :: _, _, _, hp => Or.inl hp
  | Except.ok root :: rest, m, p, hp => by
    rcases processDocs_mem rest (dictInsertAll m (docEntries root)) p hp
      with h | ⟨r, hr, hpr⟩
    · rcases mem_dictInsertAll (docEntries root) m p h with h | h
      · exact Or.inl h
      · exact Or.inr ⟨root, List.mem_cons_self _ _, h⟩
    · exact Or.inr ⟨r, List.mem_cons_of_mem _ hr, hpr⟩

/-- Every key-value pair of the final mapping carries a non-empty,
self-stripped value. -/
theorem mapping_value_trimmed (input : Except OpenError ZipArchive)
    (p : String × String) (hp : p ∈ (extract_sql_from_tdsx input).mapping) :
    p.2 ≠ "" ∧ pyStrip p.2 = p.2 := by
  have hsrc : ∃ t, pyStrip t ≠ "" ∧ p.2 = pyStrip t := by
    match input with
    | Except.error OpenError.notFound => exact absurd hp (List.not_mem_nil p)
    | Except.error OpenError.badZip => exact absurd hp (List.not_mem_nil p)
    | Except.ok ar =>
      rw [extract_sql_from_tdsx_ok] at hp
      by_cases hemp : (ar.entries.filter (fun e => strEndsWith e.1 ".tds")).isEmpty
      · rw [if_pos hemp] at hp
        exact absurd hp (List.not_mem_nil p)
      · rw [if_neg hemp] at hp
        rcases processDocs_mem _ [] p hp with h | ⟨root, _, hpr⟩
        · exact absurd h (List.not_mem_nil p)
        · exact docEntries_sound root p hpr
  obtain ⟨t, hne, hv⟩ := hsrc
  constructor
  · rw [hv]
    exact hne
  · rw [hv, pyStrip_idem]

/-!
## Helper lemmas: descendants and the file sink
-/

mutual

/-- Descendant membership is transitive through an element. -/
theorem mem_descendants_trans : ∀ (a b : XMLElem), b ∈ descendants a →
    ∀ x ∈ descendants b, x ∈ descendants a
  | .mk _ _ _ cs, b, hb, x, hx => mem_descendantsList_trans cs b hb x hx

/-- Descendant membership is transitive through a forest. -/
theorem mem_descendantsList_trans : ∀ (cs : List XMLElem) (b : XMLElem),
    b ∈ descendantsList cs → ∀ x ∈ descendants b, x ∈ descendantsList cs
  | [], b, hb, _, _ => absurd hb (List.not_mem_nil b)
  | c :: cs, b, hb, x, hx => by
    rw [descendantsList] at hb ⊢
    rcases List.mem_cons.mp hb with h | h
    · subst h
      exact List.mem_cons_of_mem _ (List.mem_append_left _ hx)
    · rcases List.mem_append.mp h with h | h
      · exact List.mem_cons_of_mem _ (List.mem_append_left _
          (mem_descendants_trans c b h x hx))
      · exact List.mem_cons_of_mem _ (List.mem_append_right _
          (mem_descendantsList_trans cs b h x hx))

end

/-- On ASCII code points the Unicode alphanumeric test coincides with the
ASCII one. -/
theorem pyIsAlnum_ascii (c : Char) (hc : c.toNat < 128) :
    pyIsAlnum c = c.isAlphanum := by
  have hb : ∀ n : Nat, 128 ≤ n → (c.toNat == n) = false := fun n hn =>
    beq_eq_false_iff_ne.mpr (by omega)
  have hr : decide (0xC0 ≤ c.toNat) = false := decide_eq_false (by omega)
  simp only [pyIsAlnum, hb 0xAA (by omega), hb 0xB2 (by omega),
    hb 0xB3 (by omega), hb 0xB5 (by omega), hb 0xB9 (by omega),
    hb 0xBA (by omega), hb 0xBC (by omega), hb 0xBD (by omega),
    hb 0xBE (by omega), hr, Bool.false_and, Bool.and_false, Bool.or_false]

/-- An ASCII character that is not alphanumeric, `-` or `_` is replaced by
`_` in safe filenames. -/
theorem sanitizeChar_ascii_other (c : Char) (hc : c.toNat < 128)
    (ha : c.isAlphanum = false) (h1 : c ≠ '-') (h2 : c ≠ '_') :
    sanitizeChar c = '_' := by
  rw [sanitizeChar, if_neg]
  simp [pyIsAlnum_ascii c hc, ha, h1, h2]

/-- Appending the fixed `.sql` suffix is injective on names. -/
theorem append_sql_inj (a b : String) (h : a ++ ".sql" = b ++ ".sql") :
    a = b := by
  have hd : a.data ++ ".sql".data = b.data ++ ".sql".data := by
    have hdata := congrArg String.data h
    simpa using hdata
  cases a with
  | mk la =>
    cases b with
    | mk lb =>
      exact congrArg String.mk (List.append_cancel_right hd)

/-- When no two labels sanitise to the same filename, the directory after the
sink holds exactly the write list. -/
theorem sinkState_of_nodup (m : List (String × String))
    (h : (m.map (fun p => safeName p.1)).Nodup) :
    sinkState m = sinkWrites m := by
  have hmap : (sinkWrites m).map Prod.fst
      = (m.map (fun p => safeName p.1)).map (fun s => s ++ ".sql") := by
    simp [sinkWrites, List.map_map, Function.comp]
  have hnd : (([] ++ sinkWrites m).map Prod.fst).Nodup := by
    rw [List.nil_append, hmap]
    exact h.map fun s₁ s₂ hs => append_sql_inj s₁ s₂ hs
  rw [sinkState, dictInsertAll_of_fresh (sinkWrites m) [] hnd,
    List.nil_append]

/-!
## Claims
-/

/-- C7: for a byte stream that is not a valid zip archive, extraction reports
`NotAnArchive` and returns an empty mapping — no partial result, no escaping
exception (the `BadZipFile` handler prints and falls through to the normal
return). -/
theorem c7_bad_zip_empty_mapping :
    extract_sql_from_tdsx (Except.error OpenError.badZip)
      = ⟨[], some ExtractError.notAnArchive, false⟩ := rfl

/-- C8: a valid archive with no entry named `*.tds` yields an empty mapping,
no error, and the "No .tds file found" message. -/
theorem c8_no_tds_empty_mapping (ar : ZipArchive)
    (h : ∀ e ∈ ar.entries, ¬ strEndsWith e.1 ".tds" = true) :
    extract_sql_from_tdsx (Except.ok ar) = ⟨[], none, true⟩ := by
  have hf : ar.entries.filter (fun e => strEndsWith e.1 ".tds") = [] :=
    List.filter_eq_nil_iff.mpr h
  rw [extract_sql_from_tdsx_ok, hf]
  rfl

/-- Witness for C8 on a concrete archive without `.tds` entries. -/
theorem c8_witness :
    extract_sql_from_tdsx (Except.ok c8Archive) = ⟨[], none, true⟩ :=
  c8_no_tds_empty_mapping c8Archive (by decide)

/-- C3: a descriptor entry that fails to parse aborts the descriptor loop —
the malformed-document error is surfaced and entries after the failing one
contribute nothing (the result does not depend on them). -/
theorem c3_malformed_doc_aborts (pre post : List (Except Unit XMLElem))
    (m : List (String × String))
    (hok : ∀ d ∈ pre, ∃ root, d = Except.ok root) :
    (processDocs (pre ++ Except.error () :: post) m).2
        = some ExtractError.malformedDocument ∧
    processDocs (pre ++ Except.error () :: post) m
        = processDocs (pre ++ [Except.error ()]) m := by
  induction pre generalizing m with
  | nil => exact ⟨rfl, rfl⟩
  | cons d rest ih =>
    obtain ⟨root, hd⟩ := hok d (List.mem_cons_self d rest)
    subst hd
    simpa [processDocs] using
      ih (dictInsertAll m (docEntries root))
        (fun d' hd' => hok d' (List.mem_cons_of_mem _ hd'))

/-- Witness for C3: one good descriptor, then a malformed one, then another
good one that is never processed. -/
theorem c3_witness :
    (processDocs ([Except.ok simpleDoc] ++ Except.error () ::
        [Except.ok simpleDoc]) []).2 = some ExtractError.malformedDocument ∧
    processDocs ([Except.ok simpleDoc] ++ Except.error () ::
        [Except.ok simpleDoc]) []
      = processDocs ([Except.ok simpleDoc] ++ [Except.error ()]) [] :=
  c3_malformed_doc_aborts [Except.ok simpleDoc] [Except.ok simpleDoc] []
    (by
      intro d hd
      rw [List.mem_singleton.mp hd]
      exact ⟨simpleDoc, rfl⟩)

/-- C1 counterexample: `c1Conn` has exactly one `type="text"` relation whose
text is non-empty after trimming (plus one whitespace-only text relation),
yet its SQL entry is keyed `c_query_2`, not the display name `c`: the key
suffix is decided by `len(relations)`, which counts whitespace-only
relations. -/
theorem c1_counterexample :
    ((textRelations c1Conn).filter
        (fun r => match r.text with
                  | none => false
                  | some t => !(pyStrip t == ""))).length = 1 ∧
    (extract_sql_from_tdsx (Except.ok ⟨[("d.tds", Except.ok c1Doc)]⟩)).mapping
      = [("c_query_2", "SELECT 1")] ∧
    ∀ p ∈ (extract_sql_from_tdsx
        (Except.ok ⟨[("d.tds", Except.ok c1Doc)]⟩)).mapping,
      p.1 ≠ connDisplayName c1Conn 1 := by
  decide

/-- C1 (amended): when a Connection Node's `type="text"` relation list has
length exactly one (whitespace-only relations included in the count) and that
relation's text is non-empty after trimming, the entry is labelled with the
connection's display name directly, with the trimmed text as value. -/
theorem c1_single_text_relation_label (conn : XMLElem) (idx : Nat)
    (rel : XMLElem) (t : String) (h : textRelations conn = [rel])
    (ht : rel.text = some t) (hne : pyStrip t ≠ "") :
    connEntries conn idx = [(connDisplayName conn idx, pyStrip t)] := by
  rw [connEntries, relEntries, h,
    relEntriesAux_cons_text (connDisplayName conn idx) [rel].length 1 rel []
      t ht hne]
  rfl

/-- Witness for C1 (amended) on a connection with a single text relation. -/
theorem c1_witness : connEntries c1wConn 1 = [("c", "SELECT 1")] := by
  have h := c1_single_text_relation_label c1wConn 1 c1wRel " SELECT 1 "
    rfl rfl (by decide)
  exact h.trans (by decide)

/-- C2 counterexample: in `c2Conn` the relations in document order are a
whitespace-only one, `SELECT 1` and `SELECT 2`. The claim predicts the i-th
non-empty relation is keyed `_query_<i>`, i.e. `c_query_1` and `c_query_2`;
the code instead indexes over all text relations, producing `c_query_2` and
`c_query_3` and no `c_query_1` at all. -/
theorem c2_counterexample :
    (extract_sql_from_tdsx (Except.ok ⟨[("d.tds", Except.ok c2Doc)]⟩)).mapping
      = [("c_query_2", "SELECT 1"), ("c_query_3", "SELECT 2")] ∧
    ∀ p ∈ (extract_sql_from_tdsx
        (Except.ok ⟨[("d.tds", Except.ok c2Doc)]⟩)).mapping,
      p.1 ≠ "c_query_1" := by
  decide

/-- C2 (amended): when a connection has more than one `type="text"` relation,
the relation at 0-based position `i` of the full relation list (whitespace
relations counted), if non-empty after trimming, contributes the entry keyed
`<display-name>_query_<i+1>` with the trimmed text — so the 1-based index is
the position among all text relations, not among the non-empty ones. -/
theorem c2_query_label_by_list_position (connName : String)
    (rels : List XMLElem) (hlen : 1 < rels.length) (i : Nat) (rel : XMLElem)
    (t : String) (hi : rels[i]? = some rel) (ht : rel.text = some t)
    (hne : pyStrip t ≠ "") :
    (connName ++ "_query_" ++ toString (i + 1), pyStrip t)
      ∈ relEntries connName rels := by
  have h := relEntriesAux_mem_at connName rels.length hlen rels 1 i rel t hi
    ht hne
  rw [relEntries]
  have harith : 1 + i = i + 1 := by omega
  rwa [harith] at h

/-- Witness for C2 (amended): two all non-empty text relations occupy
positions 1 and 2 and are keyed accordingly, preserving document order. -/
theorem c2_witness :
    ("c_query_1", "SELECT 1") ∈ relEntries "c" (textRelations c2wConn) ∧
    ("c_query_2", "SELECT 2") ∈ relEntries "c" (textRelations c2wConn) := by
  constructor
  · exact c2_query_label_by_list_position "c" (textRelations c2wConn)
      (by decide) 0 (XMLElem.mk "relation" [("type", "text")]
        (some "SELECT 1") []) "SELECT 1" rfl rfl (by decide)
  · exact c2_query_label_by_list_position "c" (textRelations c2wConn)
      (by decide) 1 (XMLElem.mk "relation" [("type", "text")]
        (some "SELECT 2") []) "SELECT 2" rfl rfl (by decide)

/-- C4 counterexample: a `class` attribute that is present but empty is used
as the display name (the code only falls back on a missing attribute), so
the display name is `""`, not `connection_1` as the claim requires for an
empty `class`. -/
theorem c4_counterexample :
    c4Conn.attr "class" = some "" ∧
    connDisplayName c4Conn 1 = "" ∧
    connDisplayName c4Conn 1 ≠ "connection_1" ∧
    (extract_sql_from_tdsx (Except.ok ⟨[("d.tds", Except.ok c4Doc)]⟩)).mapping
      = [("", "SELECT 2")] := by
  decide

/-- C4 (amended): the display name of a connection is the `class` attribute
value whenever the attribute is present — even when its value is empty — and
`connection_<n>` when it is absent, where `n` is the connection's 1-based
position in the document's connection list; the connection's entries sit at
that position in the document's entry list. -/
theorem c4_display_name_rule (root : XMLElem) (pre post : List XMLElem)
    (conn : XMLElem) (h : findAll root "connection" = pre ++ conn :: post) :
    (∃ l₁ l₂, docEntries root
        = l₁ ++ connEntries conn (pre.length + 1) ++ l₂) ∧
    (∀ v, conn.attr "class" = some v →
      connDisplayName conn (pre.length + 1) = v) ∧
    (conn.attr "class" = none →
      connDisplayName conn (pre.length + 1)
        = "connection_" ++ toString (pre.length + 1)) := by
  refine ⟨?_, ?_, ?_⟩
  · rw [docEntries, h, connsEntriesAux_append conn pre post 1]
    have harith : 1 + pre.length = pre.length + 1 := by omega
    rw [harith]
    exact ⟨connsEntriesAux 1 pre,
      connsEntriesAux (pre.length + 1 + 1) post ++ namedConnEntries root,
      by simp [List.append_assoc]⟩
  · intro v hv
    rw [connDisplayName, XMLElem.attrD, hv]
    rfl
  · intro hv
    rw [connDisplayName, XMLElem.attrD, hv]
    rfl

/-- Witness for C4 (amended) on a document whose only connection has no
`class` attribute: its display name is the positional fallback. -/
theorem c4_witness :
    (∃ l₁ l₂, docEntries c4wDoc = l₁ ++ connEntries c4wConn 1 ++ l₂) ∧
    (∀ v, c4wConn.attr "class" = some v → connDisplayName c4wConn 1 = v) ∧
    (c4wConn.attr "class" = none →
      connDisplayName c4wConn 1 = "connection_" ++ toString 1) :=
  c4_display_name_rule c4wDoc [] [] c4wConn rfl

/-- C5: each named-connection whose first nested connection carries a
`one-time-sql` attribute with non-empty trimmed text contributes the entry
`<name>_initial_sql` (name defaulting to `unnamed` when absent) with the
trimmed text. -/
theorem c5_initial_sql_entry (root nc ce : XMLElem) (sql : String)
    (hnc : nc ∈ findAll root "named-connection")
    (hce : (findAll nc "connection").head? = some ce)
    (hsql : ce.attr "one-time-sql" = some sql) (hne : pyStrip sql ≠ "") :
    (nc.attrD "name" "unnamed" ++ "_initial_sql", pyStrip sql)
      ∈ docEntries root := by
  have hmem : (nc.attrD "name" "unnamed" ++ "_initial_sql", pyStrip sql)
      ∈ namedConnEntries root := by
    rw [namedConnEntries]
    exact List.mem_filterMap.mpr ⟨nc, hnc,
      namedConnEntry_eq nc ce sql hce hsql hne⟩
  rw [docEntries]
  exact List.mem_append_right _ hmem

/-- Witness for C5: `name="src"` with `one-time-sql="SELECT 3  "` yields the
entry `src_initial_sql` with value `SELECT 3`. -/
theorem c5_witness :
    ("src_initial_sql", "SELECT 3") ∈ docEntries c5wDoc := by
  have h := c5_initial_sql_entry c5wDoc c5wNc c5wCe "SELECT 3  "
    (by
      rw [show findAll c5wDoc "named-connection" = [c5wNc] from rfl]
      exact List.mem_cons_self _ _)
    rfl rfl (by decide)
  exact h

/-- C9: invariant of the result mapping — every stored value is non-empty and
equal to its own trimmed form, and every relation entry originates from a
relation whose text is non-empty after trimming (so empty or whitespace-only
relations contribute nothing). -/
theorem c9_mapping_values_trimmed (input : Except OpenError ZipArchive) :
    (∀ p ∈ (extract_sql_from_tdsx input).mapping,
        p.2 ≠ "" ∧ pyStrip p.2 = p.2) ∧
    (∀ (connName : String) (rels : List XMLElem) (e : String × String),
        e ∈ relEntries connName rels →
        ∃ rel ∈ rels, ∃ t, rel.text = some t ∧ pyStrip t ≠ "" ∧
          e.2 = pyStrip t) := by
  constructor
  · intro p hp
    exact mapping_value_trimmed input p hp
  · intro connName rels e he
    exact relEntriesAux_sound connName rels.length rels 1 e he

/-- Witness for C9 on a concrete extraction containing a whitespace-only
relation: the value stored for the surviving entry is non-empty and
self-trimmed. -/
theorem c9_witness :
    (("c_query_2", "SELECT 1")
        ∈ (extract_sql_from_tdsx (Except.ok c9Archive)).mapping) ∧
    ("SELECT 1" ≠ "" ∧ pyStrip "SELECT 1" = "SELECT 1") := by
  refine ⟨by decide, ?_⟩
  exact (c9_mapping_values_trimmed (Except.ok c9Archive)).1
    ("c_query_2", "SELECT 1") (by decide)

/-- C10: a connection nested inside another connection is itself found by the
document-wide connection search; every `type="text"` relation of the inner
connection's subtree also lies in the outer connection's subtree, and each of
the two connections' relation loops produces an entry carrying that
relation's trimmed text (under its own label, so a label collision is
resolved by last-write-wins in the dict). -/
theorem c10_nested_connection_scope (root outer inner : XMLElem)
    (houter : outer ∈ findAll root "connection")
    (hinner : inner ∈ findAll outer "connection") :
    inner ∈ findAll root "connection" ∧
    (∀ r ∈ textRelations inner, r ∈ textRelations outer) ∧
    (∀ r ∈ textRelations inner, ∀ t, r.text = some t → pyStrip t ≠ "" →
      ∀ n₁ n₂ : String,
        (∃ e ∈ relEntries n₁ (textRelations outer), e.2 = pyStrip t) ∧
        (∃ e ∈ relEntries n₂ (textRelations inner), e.2 = pyStrip t)) := by
  have houter' := List.mem_filter.mp houter
  have hinner' := List.mem_filter.mp hinner
  have hsub : ∀ r ∈ textRelations inner, r ∈ textRelations outer := by
    intro r hr
    have hr' := List.mem_filter.mp hr
    exact List.mem_filter.mpr
      ⟨mem_descendants_trans outer inner hinner'.1 r hr'.1, hr'.2⟩
  refine ⟨List.mem_filter.mpr
    ⟨mem_descendants_trans root outer houter'.1 inner hinner'.1,
     hinner'.2⟩, hsub, ?_⟩
  intro r hr t ht hne n₁ n₂
  constructor
  · exact relEntriesAux_complete n₁ (textRelations outer).length
      (textRelations outer) 1 r t (hsub r hr) ht hne
  · exact relEntriesAux_complete n₂ (textRelations inner).length
      (textRelations inner) 1 r t hr ht hne

/-- Witness for C10 on a document with a connection nested inside another:
both are found and both see the inner relation's SQL. -/
theorem c10_witness :
    c10Inner ∈ findAll c10Root "connection" ∧
    (∀ r ∈ textRelations c10Inner, r ∈ textRelations c10Outer) ∧
    (∀ r ∈ textRelations c10Inner, ∀ t, r.text = some t → pyStrip t ≠ "" →
      ∀ n₁ n₂ : String,
        (∃ e ∈ relEntries n₁ (textRelations c10Outer), e.2 = pyStrip t) ∧
        (∃ e ∈ relEntries n₂ (textRelations c10Inner), e.2 = pyStrip t)) :=
  c10_nested_connection_scope c10Root c10Outer c10Inner
    (by
      rw [show findAll c10Root "connection" = [c10Outer, c10Inner] from rfl]
      exact List.mem_cons_self _ _)
    (by
      rw [show findAll c10Outer "connection" = [c10Inner] from rfl]
      exact List.mem_cons_self _ _)

/-- C6 counterexample: the label `é` (a Unicode alphanumeric, kept by
Python's `isalnum`) survives into the filename instead of becoming `_` as
the claim's `[A-Za-z0-9_-]` reading requires; moreover two labels that
sanitise to the same filename (`a:b` and `a;b` both giving `a_b`) make the
earlier entry's file content differ from its SQL text, breaking the
unconditional per-entry round-trip. -/
theorem c6_counterexample :
    (extract_sql_from_tdsx (Except.ok c6Archive)).mapping
      = [("é", "SELECT 1"), ("a:b", "SELECT 2"), ("a;b", "SELECT 3")] ∧
    sinkWrites [("é", "SELECT 1"), ("a:b", "SELECT 2"), ("a;b", "SELECT 3")]
      = [("é.sql", "SELECT 1"), ("a_b.sql", "SELECT 2"),
         ("a_b.sql", "SELECT 3")] ∧
    ("é.sql" : String) ≠ "_.sql" ∧
    sinkState [("é", "SELECT 1"), ("a:b", "SELECT 2"), ("a;b", "SELECT 3")]
      = [("é.sql", "SELECT 1"), ("a_b.sql", "SELECT 3")] := by
  decide

/-- C6 (amended): each mapping entry is written to `<safe-name>.sql` with the
entry's value — which equals its own trimmed form — as full content, where
the safe name replaces every character that is not Unicode-alphanumeric
(Python `isalnum`), hyphen or underscore by underscore; ASCII characters
outside `[A-Za-z0-9_-]` therefore always become `_`, while non-ASCII
alphanumerics survive. The directory contents reproduce every entry exactly
when no two labels sanitise to the same filename (otherwise the last write
wins). -/
theorem c6_sink_round_trip (input : Except OpenError ZipArchive)
    (label sql : String)
    (h : (label, sql) ∈ (extract_sql_from_tdsx input).mapping) :
    (safeName label ++ ".sql", sql)
      ∈ sinkWrites (extract_sql_from_tdsx input).mapping ∧
    sql = pyStrip sql ∧
    (((extract_sql_from_tdsx input).mapping.map
        (fun p => safeName p.1)).Nodup →
      (safeName label ++ ".sql", sql)
        ∈ sinkState (extract_sql_from_tdsx input).mapping) ∧
    (∀ c : Char, c.toNat < 128 → c.isAlphanum = false → c ≠ '-' → c ≠ '_' →
      sanitizeChar c = '_') := by
  refine ⟨?_, ?_, ?_, ?_⟩
  · exact List.mem_map.mpr ⟨(label, sql), h, rfl⟩
  · exact ((mapping_value_trimmed input (label, sql) h).2).symm
  · intro hnd
    rw [sinkState_of_nodup _ hnd]
    exact List.mem_map.mpr ⟨(label, sql), h, rfl⟩
  · exact fun c hc ha h1 h2 => sanitizeChar_ascii_other c hc ha h1 h2

/-- Witness for C6 (amended) on the entry labelled `a:b`. -/
theorem c6_witness :
    ((safeName "a:b" ++ ".sql", "SELECT 2")
        ∈ sinkWrites (extract_sql_from_tdsx (Except.ok c6Archive)).mapping) ∧
    ("SELECT 2" = pyStrip "SELECT 2") ∧
    ((((extract_sql_from_tdsx (Except.ok c6Archive)).mapping.map
        (fun p => safeName p.1)).Nodup →
      (safeName "a:b" ++ ".sql", "SELECT 2")
        ∈ sinkState (extract_sql_from_tdsx (Except.ok c6Archive)).mapping)) ∧
    (∀ c : Char, c.toNat < 128 → c.isAlphanum = false → c ≠ '-' → c ≠ '_' →
      sanitizeChar c = '_') :=
  c6_sink_round_trip (Except.ok c6Archive) "a:b" "SELECT 2" (by decide)

end TableauSQLExtractor
